import Mathlib

/-!
A verification development for the astrological chart / transit computation
core of the repository (`src/main.py`, `src/natal_chart.py`,
`src/transit_waveforms.py`).

Modelling conventions:
* Real arithmetic is modelled with `ℚ`.  Python's float operations used by
  the code (`%` with a positive modulus, `//`, `int()`, `abs`) are modelled
  exactly: floor-based modulus, floor division, truncation toward zero.
* Fallible Python code (functions that raise) returns `Option`/`Except`.
* External libraries (`swisseph`, `pytz`, `timezonefinder`, `numpy`) are
  oracles: they are passed in as explicit function parameters, and the one
  piece of library state the code mutates (`swe.set_topo`) is threaded as an
  explicit state value.
-/

/-- Python `int(q)` on a float: truncation toward zero. -/
def pyInt (q : ℚ) : ℤ := if 0 ≤ q then ⌊q⌋ else ⌈q⌉

/-- Python `a % m` on floats (every use in the source has `m > 0`):
`a - m * floor (a / m)`. -/
def pymod (a m : ℚ) : ℚ := a - m * ⌊a / m⌋

/-- Python list indexing `l[i]`, including Python's negative indices;
`none` models the `IndexError` exception. -/
def pyListGet {α : Type} (l : List α) (i : ℤ) : Option α :=
  if 0 ≤ i then l[i.toNat]?
  else if (-i).toNat ≤ l.length then l[l.length - (-i).toNat]? else none

/-- The 12 zodiac sign names, in order (the same list appears as
`zodiac_signs` in `main.py` and as `signs` in `natal_chart.degrees_to_zodiac`). -/
def zodiac_signs : List String :=
  ["Aries", "Taurus", "Gemini", "Cancer", "Leo", "Virgo",
   "Libra", "Scorpio", "Sagittarius", "Capricorn", "Aquarius", "Pisces"]

/-! ### Decimal printing (Python `str`/`f"{…:.2f}"` of the numbers the codec emits) -/

/-- The character of a decimal digit. -/
def digitChar (d : ℕ) : Char := Char.ofNat (48 + d)

/-- Big-endian decimal digits of `n`, accumulator style; any `fuel ≥ n` is enough. -/
def natCharsAux : ℕ → ℕ → List Char → List Char
  | 0, _, acc => acc
  | fuel + 1, n, acc =>
    if n = 0 then acc else natCharsAux fuel (n / 10) (digitChar (n % 10) :: acc)

/-- Decimal string of a natural number, as Python prints one. -/
def natStr (n : ℕ) : String :=
  if n = 0 then "0" else ⟨natCharsAux n n []⟩

/-- Decimal string of an integer, as Python prints one. -/
def intStr (i : ℤ) : String :=
  if i < 0 then "-" ++ natStr (-i).toNat else natStr i.toNat

/-- Python `f"{q:.2f}"` on a rational: round to hundredths and print with
exactly two decimals.  (Ties are rounded half-up here; CPython formats the
binary float half-to-even — no property verified below depends on the tie.) -/
def fmt2 (q : ℚ) : String :=
  let c : ℤ := round (q * 100)
  let sign := if c < 0 then "-" else ""
  let n := c.natAbs
  sign ++ natStr (n / 100) ++ "." ++ ⟨[digitChar (n % 100 / 10), digitChar (n % 10)]⟩

/-! ### The position codec -/

/-- `natal_chart.degrees_to_dms`:
`d = int(degrees)`, `m = int((degrees - d) * 60)`,
`s = (degrees - d - m / 60) * 3600`, printed as `f"{d}° {m}' {s:.2f}\""`. -/
def degrees_to_dms (degrees : ℚ) : String :=
  let d : ℤ := pyInt degrees
  let m : ℤ := pyInt ((degrees - (d : ℚ)) * 60)
  let s : ℚ := (degrees - (d : ℚ) - (m : ℚ) / 60) * 3600
  intStr d ++ "° " ++ intStr m ++ "' " ++ fmt2 s ++ "\""

/-- `natal_chart.degrees_to_zodiac`: `signs[int(degrees // 30)]` then
`degrees_to_dms(degrees % 30)`.  `none` models the `IndexError` Python raises
when `int(degrees // 30)` falls outside the sign list (no `mod 12` is applied). -/
def degrees_to_zodiac (degrees : ℚ) : Option String :=
  match pyListGet zodiac_signs ⌊degrees / 30⌋ with
  | none => none
  | some sign => some (degrees_to_dms (pymod degrees 30) ++ " " ++ sign)

/-! ### The position parser (`main.convert_to_degrees`)

The Python function matches the verbose regex
`(\d+\.?\d*)°\s*(?:(\d+\.?\d*)')?\s*(?:(\d+\.?\d*)")?\s*([A-Za-z]+)`
with `re.match` against the stripped input (anchored at the start only),
converts the numeric groups with `float`, capitalizes the sign and looks it
up in `zodiac_signs`.  The recursive-descent parser below follows the regex
left to right; each numeric atom is greedy, and an optional group falls back
to the empty match when its closing mark is absent, exactly as the regex
backtracks. -/

/-- Python's `\s` class: space, tab, newline, carriage return, vertical tab,
form feed. -/
def isPySpace (c : Char) : Bool :=
  c = ' ' || c = '\t' || c = '\n' || c = '\r' || c = '\x0b' || c = '\x0c'

/-- Python `str.strip()`. -/
def pyStrip (l : List Char) : List Char :=
  ((l.dropWhile isPySpace).reverse.dropWhile isPySpace).reverse

/-- Split a greedy run of `\d` digits off the front. -/
def takeDigits (l : List Char) : List Char × List Char :=
  (l.takeWhile Char.isDigit, l.dropWhile Char.isDigit)

/-- Numeric value of a big-endian digit run (the integer part of `float(. )`). -/
def digitsToNat (acc : ℕ) : List Char → ℕ
  | [] => acc
  | c :: cs => digitsToNat (acc * 10 + (c.toNat - 48)) cs

/-- Numeric value of the digit run after a decimal point. -/
def fracValue : List Char → ℚ
  | [] => 0
  | c :: cs => (((c.toNat - 48 : ℕ) : ℚ) + fracValue cs) / 10

/-- One numeric atom `\d+\.?\d*` of the regex, with `float` applied to the
matched text; `none` when no digit starts the input. -/
def parseNumber (l : List Char) : Option (ℚ × List Char) :=
  match takeDigits l with
  | ([], _) => none
  | (ds, rest) =>
    match rest with
    | c :: rest2 =>
      if c = '.' then
        match takeDigits rest2 with
        | (fs, rest3) => some ((digitsToNat 0 ds : ℚ) + fracValue fs, rest3)
      else some ((digitsToNat 0 ds : ℚ), rest)
    | [] => some ((digitsToNat 0 ds : ℚ), [])

/-- An optional group `(?:(\d+\.?\d*)M)?` for a closing mark `M` (`'` or `"`):
matches a numeric atom followed by the mark, or falls back to the empty match. -/
def parseOptNumber (mark : Char) (l : List Char) : Option ℚ × List Char :=
  match parseNumber l with
  | some (v, c :: rest) => if c = mark then (some v, rest) else (none, l)
  | _ => (none, l)

/-- The whole regex of `main.convert_to_degrees` against a stripped input:
the captured groups (degrees, optional minutes, optional seconds, sign
letters), or `none` when the pattern does not match. -/
def regexMatch (l : List Char) : Option (ℚ × Option ℚ × Option ℚ × List Char) :=
  match parseNumber l with
  | none => none
  | some (degrees, rest) =>
    match rest with
    | '°' :: r2 =>
      let r3 := r2.dropWhile isPySpace
      match parseOptNumber '\'' r3 with
      | (minutes, r4) =>
        let r5 := r4.dropWhile isPySpace
        match parseOptNumber '"' r5 with
        | (seconds, r6) =>
          let r7 := r6.dropWhile isPySpace
          let sign := r7.takeWhile Char.isAlpha
          if sign.isEmpty then none else some (degrees, minutes, seconds, sign)
    | _ => none

/-- Python `str.capitalize()`: first character uppercased, the rest lowercased. -/
def pyCapitalize : List Char → List Char
  | [] => []
  | c :: cs => c.toUpper :: cs.map Char.toLower

/-- `main.convert_to_degrees`: position string to absolute ecliptic degrees.
`Except.error` carries the message of the `ValueError` Python raises. -/
def convert_to_degrees (position : String) : Except String ℚ :=
  match regexMatch (pyStrip position.data) with
  | some (degrees, minutes, seconds, signChars) =>
    let sign : String := ⟨pyCapitalize signChars⟩
    let total_degrees := degrees + (minutes.getD 0) / 60 + (seconds.getD 0) / 3600
    match List.indexOf? sign zodiac_signs with
    | some sign_index => .ok (total_degrees + (sign_index : ℚ) * 30)
    | none =>
      .error ("Invalid zodiac sign: '" ++ sign ++ "' in position '" ++ position ++ "'")
  | none => .error ("Invalid position format: '" ++ position ++ "'")

/-! ### The transit scanner (`transit_waveforms.calculate_transit_waveforms`) -/

/-- One emitted transit fact (the dict appended to `transits`). -/
structure TransitEvent where
  date : ℤ
  transiting_planet : String
  natal_planet : String
  aspect : String
  intensity : ℚ
deriving DecidableEq, Repr

/-- The `planets` table (identical in `main.py` and `transit_waveforms.py`). -/
def planets : List String :=
  ["Jupiter", "Mars", "Mercury", "Moon", "Neptune", "Pluto",
   "Saturn", "Sun", "Uranus", "Venus"]

/-- The `aspects` table: aspect kind to exact angle (identical in `main.py`
and `transit_waveforms.py`). -/
def aspects : List (String × ℚ) :=
  [("Conjunction", 0), ("Opposition", 180), ("Trine", 120),
   ("Square", 90), ("Sextile", 60)]

/-- The `orb` table: aspect kind to orb tolerance.  Python reads it with
`orb[aspect_name]`; every key the code looks up is present, so the `getD 0`
default below is never the value used. -/
def orb : List (String × ℚ) :=
  [("Conjunction", 8), ("Opposition", 8), ("Trine", 8),
   ("Square", 8), ("Sextile", 6)]

/-- Lines 28–30 of `calculate_transit_waveforms` (the same reflection appears
in `main.generate_aspect_plot`): `abs((transit_position - natal_position) % 360)`,
then `if > 180 then 360 - diff`. -/
def angle_diff_of (transit_position natal_position : ℚ) : ℚ :=
  let d := |pymod (transit_position - natal_position) 360|
  if d > 180 then 360 - d else d

/-- The innermost `for aspect_name, exact_angle in aspects.items()` step of
`calculate_transit_waveforms`: emit an event when
`angle_diff <= orb[aspect_name]`, with
`intensity = 1 - angle_diff / orb[aspect_name]`.  Note: the Python loop binds
`exact_angle` (the second component of the `aspects` entry `a`) but never
uses it — the test and the intensity are computed from `angle_diff` alone. -/
def aspectCheck (transit_position natal_position : ℚ) (current_date : ℤ)
    (planet natal_planet : String) (a : String × ℚ) : Option TransitEvent :=
  let angle_diff := angle_diff_of transit_position natal_position
  if angle_diff ≤ (orb.lookup a.1).getD 0 then
    some ⟨current_date, planet, natal_planet, a.1,
          1 - angle_diff / (orb.lookup a.1).getD 0⟩
  else none

/-- The `for natal_planet, natal_position in natal_positions.items()` level of
the loop nest: all aspect kinds against one natal body. -/
def scanNatal (transit_position : ℚ) (current_date : ℤ) (planet : String)
    (np : String × ℚ) : List TransitEvent :=
  aspects.filterMap (aspectCheck transit_position np.2 current_date planet np.1)

/-- The body of the scanner's `while` loop for one sampled date: iterate
every transiting planet (computing `transit_position` once per planet), every
natal body and every aspect kind.  The `oracle` argument stands for
`natal_chart.get_transit_position(current_date, planet)`, which the source
calls but which is defined nowhere in the repository (§4.2's
`body_longitude` of the spec). -/
def scanDay (oracle : ℤ → String → ℚ) (natal_positions : List (String × ℚ))
    (current_date : ℤ) : List TransitEvent :=
  planets.flatMap fun planet =>
    natal_positions.flatMap
      (scanNatal (oracle current_date planet) current_date planet)

/-- The scanner's `while current_date <= end_date` loop; the number of
remaining iterations, `(end_date + 1 - current_date).toNat`, is passed
explicitly so the recursion is structural. -/
def scanFrom (oracle : ℤ → String → ℚ) (natal_positions : List (String × ℚ))
    (current_date : ℤ) : ℕ → List TransitEvent
  | 0 => []
  | fuel + 1 =>
      scanDay oracle natal_positions current_date ++
        scanFrom oracle natal_positions (current_date + 1) fuel

/-- `transit_waveforms.calculate_transit_waveforms(natal_positions, start_date,
end_date)`: step one day at a time (`timedelta(days=1)`) while
`current_date <= end_date`. -/
def calculate_transit_waveforms (oracle : ℤ → String → ℚ)
    (natal_positions : List (String × ℚ)) (start_date end_date : ℤ) :
    List TransitEvent :=
  scanFrom oracle natal_positions start_date (end_date + 1 - start_date).toNat

/-- The successive dates of a `while`-loop run of given length. -/
def datesFrom (current_date : ℤ) : ℕ → List ℤ
  | 0 => []
  | fuel + 1 => current_date :: datesFrom (current_date + 1) fuel

/-- The dates sampled by the `while` loop of `calculate_transit_waveforms`. -/
def scan_dates (start_date end_date : ℤ) : List ℤ :=
  datesFrom start_date (end_date + 1 - start_date).toNat

/-- `numpy.arange(start, stop, step)` for `step > 0`, in exact arithmetic:
the `ceil((stop - start) / step)` samples `start + i * step`. -/
def np_arange (start stop step : ℚ) : List ℚ :=
  (List.range (⌈(stop - start) / step⌉).toNat).map fun (i : ℕ) => start + (i : ℚ) * step

/-- The grid of Julian days iterated by `natal_chart.calculate_transit_waveform`:
`np.arange(julian_start, julian_end, interval_hours / 24.0)`, with the
source's default `interval_hours = 6`. -/
def calculate_transit_waveform_samples (julian_start julian_end : ℚ)
    (interval_hours : ℚ := 6) : List ℚ :=
  np_arange julian_start julian_end (interval_hours / 24)

/-- Modelled from the spec: `match_aspect(separation, aspect)` of §4.4 —
intensity `1 - |separation - exactAngle| / orb` when
`|separation - exactAngle| ≤ orb`, else no match.  No function in `src/`
computes this; it is the behaviour the spec ascribes to the scanner, stated
here to exhibit where the scanner diverges from it. -/
def match_aspect (separation exactAngle orbTol : ℚ) : Option ℚ :=
  if |separation - exactAngle| ≤ orbTol then
    some (1 - |separation - exactAngle| / orbTol)
  else none

/-- The claimed emission order of the scanner: date ascending, then
transiting-planet iteration order, then natal-body iteration order
(`natal_names` is the key order of the natal dict), then aspect-kind
iteration order. -/
def event_before (natal_names : List String) (e1 e2 : TransitEvent) : Prop :=
  e1.date < e2.date ∨
    (e1.date = e2.date ∧
      (planets.indexOf e1.transiting_planet < planets.indexOf e2.transiting_planet ∨
        (e1.transiting_planet = e2.transiting_planet ∧
          (natal_names.indexOf e1.natal_planet < natal_names.indexOf e2.natal_planet ∨
            (e1.natal_planet = e2.natal_planet ∧
              (aspects.map Prod.fst).indexOf e1.aspect <
                (aspects.map Prod.fst).indexOf e2.aspect)))))

/-! ### The natal chart builder (`natal_chart.calculate_natal_chart`) -/

/-- The components of a Python `datetime` the code reads. -/
structure PyDateTime where
  year : ℤ
  month : ℤ
  day : ℤ
  hour : ℚ
  minute : ℚ
deriving DecidableEq

/-- The external libraries `calculate_natal_chart` calls, as oracles:
`datetime.strptime` (with the `'%d.%m.%Y %H:%M'` format), `TimezoneFinder().timezone_at`,
`pytz` localization, conversion to UTC, `swe.julday` and `swe.calc_ut`.
`calc_ut` receives the current topocentric observer, since swisseph reads it
from the process-global state written by `swe.set_topo`. -/
structure SweWorld where
  strptime_dob_tob : String → String → Option PyDateTime
  timezone_at : ℚ → ℚ → Option String
  localize : String → PyDateTime → Except String PyDateTime
  astimezone_utc : PyDateTime → PyDateTime
  julday : ℤ → ℤ → ℤ → ℚ → ℚ
  calc_ut : Option (ℚ × ℚ × ℚ) → ℚ → ℕ → Except String ℚ

/-- The process-global swisseph state: the observer written by `swe.set_topo`. -/
structure SweState where
  observer : Option (ℚ × ℚ × ℚ)
deriving DecidableEq

/-- The `bodies` table of `calculate_natal_chart`, in its iteration order,
with the swisseph body codes. -/
def bodies : List (String × ℕ) :=
  [("Sun", 0), ("Moon", 1), ("Mercury", 2), ("Venus", 3), ("Mars", 4),
   ("Jupiter", 5), ("Saturn", 6), ("Uranus", 7), ("Neptune", 8), ("Pluto", 9)]

/-- The `for body, code in bodies.items()` loop of `calculate_natal_chart`:
query each body and format it with `degrees_to_zodiac`; the first exception
(an ephemeris error, or the `IndexError` of an out-of-range longitude)
aborts the loop, discarding everything accumulated so far. -/
def chartLoop (w : SweWorld) (st : SweState) (julian_day : ℚ) :
    List (String × ℕ) → Except String (List (String × String))
  | [] => .ok []
  | (body, code) :: rest =>
    match w.calc_ut st.observer julian_day code with
    | .error e => .error e
    | .ok lng =>
      match degrees_to_zodiac lng with
      | none => .error "list index out of range"
      | some z =>
        match chartLoop w st julian_day rest with
        | .error e => .error e
        | .ok ps => .ok ((body, z) :: ps)

/-- `natal_chart.calculate_natal_chart(dob, tob, lat, lon)`.  Returns the
swisseph state after the call together with the result; the `except` clause
re-raises every exception as `RuntimeError(f"Error calculating natal chart: {e}")`,
modelled by the message prefix (the `strptime` failure message is modelled
as `"invalid datetime"`; no claim inspects it). -/
def calculate_natal_chart (w : SweWorld) (st : SweState) (dob tob : String)
    (lat lon : ℚ) : SweState × Except String (List (String × String)) :=
  match w.strptime_dob_tob dob tob with
  | none => (st, .error "Error calculating natal chart: invalid datetime")
  | some local_dt =>
    match w.timezone_at lat lon with
    | none =>
      (st, .error
        "Error calculating natal chart: Could not determine timezone for the given location.")
    | some timezone_str =>
      match w.localize timezone_str local_dt with
      | .error e => (st, .error ("Error calculating natal chart: " ++ e))
      | .ok aware_dt =>
        let utc_dt := w.astimezone_utc aware_dt
        let julian_day := w.julday utc_dt.year utc_dt.month utc_dt.day
          (utc_dt.hour + utc_dt.minute / 60)
        let st' : SweState := ⟨some (lon, lat, 0)⟩
        match chartLoop w st' julian_day bodies with
        | .error e => (st', .error ("Error calculating natal chart: " ++ e))
        | .ok positions => (st', .ok positions)

/-! ### Arithmetic facts about the Python modulus -/

theorem pymod_eq_fract (a m : ℚ) (hm : m ≠ 0) :
    pymod a m = m * Int.fract (a / m) := by
  unfold pymod
  rw [Int.fract]
  field_simp

theorem pymod_nonneg (a m : ℚ) (hm : 0 < m) : 0 ≤ pymod a m := by
  rw [pymod_eq_fract a m (ne_of_gt hm)]
  have := Int.fract_nonneg (a / m)
  positivity

theorem pymod_lt (a m : ℚ) (hm : 0 < m) : pymod a m < m := by
  rw [pymod_eq_fract a m (ne_of_gt hm)]
  have h1 := Int.fract_lt_one (a / m)
  calc m * Int.fract (a / m) < m * 1 := by
        exact mul_lt_mul_of_pos_left h1 hm
    _ = m := mul_one m

/-- **C3**: the scanner's angular separation (lines 28–30 of
`calculate_transit_waveforms`, the same reflection as in
`main.generate_aspect_plot`) is symmetric, and its value always lies in the
closed interval `[0, 180]`. -/
theorem angle_diff_symm_and_range (a b : ℚ) :
    angle_diff_of a b = angle_diff_of b a ∧
      0 ≤ angle_diff_of a b ∧ angle_diff_of a b ≤ 180 := by
  have h360 : (360 : ℚ) ≠ 0 := by norm_num
  have hu0 : 0 ≤ Int.fract ((a - b) / 360) := Int.fract_nonneg _
  have hu1 : Int.fract ((a - b) / 360) < 1 := Int.fract_lt_one _
  have habs : ∀ u : ℚ, 0 ≤ u →
      (|360 * u| > 180 → |360 * u| = 360 * u) ∧ |360 * u| = 360 * u := by
    intro u hu
    have : |360 * u| = 360 * u := abs_of_nonneg (by linarith)
    exact ⟨fun _ => this, this⟩
  refine ⟨?_, ?_, ?_⟩
  · simp only [angle_diff_of]
    rw [pymod_eq_fract _ _ h360, pymod_eq_fract _ _ h360]
    have hx : (b - a) / 360 = -((a - b) / 360) := by ring
    rw [hx]
    by_cases h0 : Int.fract ((a - b) / 360) = 0
    · rw [Int.fract_neg_eq_zero.mpr h0, h0]
    · rw [Int.fract_neg h0]
      set u := Int.fract ((a - b) / 360) with hu
      rw [(habs u hu0).2, (habs (1 - u) (by linarith)).2]
      split_ifs <;> linarith
  · simp only [angle_diff_of]
    rw [pymod_eq_fract _ _ h360, (habs _ hu0).2]
    split_ifs <;> linarith
  · simp only [angle_diff_of]
    rw [pymod_eq_fract _ _ h360, (habs _ hu0).2]
    split_ifs <;> linarith

/-- **C10**: for `0 ≤ L < 360` the sign-table index `int(L // 30)` of
`degrees_to_zodiac` is within the 12-entry sign list and the lookup cannot
fail; for `L ≥ 360` the out-of-bounds branch is reached (no `mod 12` is
applied to the index). -/
theorem degrees_to_zodiac_safe (L : ℚ) :
    (0 ≤ L → L < 360 → (degrees_to_zodiac L).isSome = true) ∧
    (360 ≤ L → degrees_to_zodiac L = none) := by
  constructor
  · intro h0 h360
    have hq0 : (0 : ℚ) ≤ L / 30 := by linarith
    have hidx0 : 0 ≤ ⌊L / 30⌋ := Int.floor_nonneg.mpr hq0
    have hidx : ⌊L / 30⌋ < 12 := by
      rw [Int.floor_lt]
      push_cast
      linarith
    have hlen : (⌊L / 30⌋).toNat < zodiac_signs.length := by
      simp only [zodiac_signs, List.length]
      omega
    unfold degrees_to_zodiac pyListGet
    rw [if_pos hidx0, List.getElem?_eq_getElem hlen]
    rfl
  · intro h360
    have hidx : 12 ≤ ⌊L / 30⌋ := by
      rw [Int.le_floor]
      push_cast
      linarith
    have hlen : zodiac_signs.length ≤ (⌊L / 30⌋).toNat := by
      simp only [zodiac_signs, List.length]
      omega
    unfold degrees_to_zodiac pyListGet
    rw [if_pos (by omega), List.getElem?_eq_none hlen]

theorem degrees_to_zodiac_safe_witness :
    (degrees_to_zodiac 100).isSome = true ∧ degrees_to_zodiac 400 = none :=
  ⟨(degrees_to_zodiac_safe 100).1 (by norm_num) (by norm_num),
   (degrees_to_zodiac_safe 400).2 (by norm_num)⟩

/-- Evaluation helper: `degrees_to_dms` at an input whose truncations and
rounding have been computed. -/
theorem degrees_to_dms_eval (x : ℚ) (d m c : ℤ)
    (hd : pyInt x = d) (hm : pyInt ((x - (d : ℚ)) * 60) = m)
    (hc : round ((x - (d : ℚ) - (m : ℚ) / 60) * 3600 * 100) = c) :
    degrees_to_dms x = intStr d ++ "° " ++ intStr m ++ "' " ++
      ((if c < 0 then "-" else "") ++ natStr (c.natAbs / 100) ++ "." ++
        ⟨[digitChar (c.natAbs % 100 / 10), digitChar (c.natAbs % 10)]⟩) ++ "\"" := by
  simp only [degrees_to_dms, fmt2]
  rw [hd, hm, hc]

/-- **C9**: the parser imposes no upper bound on the in-sign components:
degrees ≥ 30 (`45°` in Aries, i.e. the absolute longitude 45 that
`degrees_to_zodiac` places in Taurus), minutes ≥ 60 and seconds ≥ 3600 all
parse successfully instead of raising. -/
theorem convert_to_degrees_no_upper_bound :
    convert_to_degrees "45° 0' 0\" Aries" = .ok 45 ∧
    convert_to_degrees "0° 75' 0\" Aries" = .ok (5 / 4) ∧
    convert_to_degrees "0° 0' 7200\" Aries" = .ok 2 ∧
    degrees_to_zodiac 45 = some "15° 0' 0.00\" Taurus" := by
  refine ⟨?_, ?_, ?_, ?_⟩
  · rw [show convert_to_degrees "45° 0' 0\" Aries"
        = .ok ((45 : ℚ) + (0 : ℚ) / 60 + (0 : ℚ) / 3600 + (0 : ℚ) * 30) from rfl]
    norm_num
  · rw [show convert_to_degrees "0° 75' 0\" Aries"
        = .ok ((0 : ℚ) + (75 : ℚ) / 60 + (0 : ℚ) / 3600 + (0 : ℚ) * 30) from rfl]
    norm_num
  · rw [show convert_to_degrees "0° 0' 7200\" Aries"
        = .ok ((0 : ℚ) + (0 : ℚ) / 60 + (7200 : ℚ) / 3600 + (0 : ℚ) * 30) from rfl]
    norm_num
  · have h1 : (⌊(45 : ℚ) / 30⌋ : ℤ) = 1 := by norm_num
    have hmod : pymod (45 : ℚ) 30 = 15 := by norm_num [pymod]
    have hdms := degrees_to_dms_eval (15 : ℚ) 15 0 0 (by norm_num [pyInt])
      (by norm_num [pyInt]) (by norm_num [round_eq])
    unfold degrees_to_zodiac
    rw [h1, hmod, hdms]
    rfl

/-- **C1** (failing input): with the transiting body at longitude 190 and a
natal body at 10 (separation exactly 180), the scanner emits nothing at all —
the code compares the separation itself against the orb, never subtracting
the aspect's exact angle (`exact_angle` is bound but unused) — although the
spec's `match_aspect` classifies that separation as an Opposition
(exact angle 180, orb 8) of intensity 1. -/
theorem scanner_ignores_exact_angle :
    calculate_transit_waveforms (fun _ _ => 190) [("Sun", 10)] 0 0 = [] ∧
    angle_diff_of 190 10 = 180 ∧
    match_aspect (angle_diff_of 190 10) 180 8 = some 1 := by
  have hd : angle_diff_of 190 10 = 180 := by norm_num [angle_diff_of, pymod]
  have o1 : (orb.lookup "Conjunction").getD 0 = 8 := rfl
  have o2 : (orb.lookup "Opposition").getD 0 = 8 := rfl
  have o3 : (orb.lookup "Trine").getD 0 = 8 := rfl
  have o4 : (orb.lookup "Square").getD 0 = 8 := rfl
  have o5 : (orb.lookup "Sextile").getD 0 = 6 := rfl
  refine ⟨?_, hd, ?_⟩
  · norm_num [calculate_transit_waveforms, scanFrom, scanDay, scanNatal,
      aspectCheck, planets, aspects, hd, o1, o2, o3, o4, o5]
  · rw [hd]
    norm_num [match_aspect]

/-! ### C4: the sampling conventions of the two scanner variants -/

theorem scanFrom_eq_flatMap (oracle : ℤ → String → ℚ)
    (natal : List (String × ℚ)) (fuel : ℕ) :
    ∀ c : ℤ, scanFrom oracle natal c fuel
      = (datesFrom c fuel).flatMap (scanDay oracle natal) := by
  induction fuel with
  | zero => intro c; rfl
  | succ n ih => intro c; simp [scanFrom, datesFrom, ih]

theorem mem_datesFrom (fuel : ℕ) :
    ∀ c x : ℤ, x ∈ datesFrom c fuel ↔ c ≤ x ∧ x < c + fuel := by
  induction fuel with
  | zero => intro c x; simp [datesFrom]
  | succ n ih =>
    intro c x
    simp only [datesFrom, List.mem_cons, ih]
    push_cast
    omega

theorem length_datesFrom (fuel : ℕ) : ∀ c : ℤ, (datesFrom c fuel).length = fuel := by
  induction fuel with
  | zero => intro c; rfl
  | succ n ih => intro c; simp [datesFrom, ih]

/-- **C4** (counterexample): over the 2-day range `[0, 2]` with a 24-hour
step, the `while` loop of `calculate_transit_waveforms` samples the three
dates 0, 1, 2 (end date included), while the `np.arange` grid of
`calculate_transit_waveform` yields the two samples 0, 1 and never the end
date: the two variants do not follow one shared inclusive convention. -/
theorem scan_variants_disagree :
    scan_dates 0 2 = [0, 1, 2] ∧ (2 : ℤ) ∈ scan_dates 0 2 ∧
    calculate_transit_waveform_samples 0 2 24 = [0, 1] ∧
    (2 : ℚ) ∉ calculate_transit_waveform_samples 0 2 24 := by
  have hc : (⌈((2 : ℚ) - 0) / (24 / 24 : ℚ)⌉ : ℤ) = 2 := by norm_num
  have hsam : calculate_transit_waveform_samples 0 2 24 = [0, 1] := by
    simp only [calculate_transit_waveform_samples, np_arange, hc]
    rw [show (2 : ℤ).toNat = 2 from rfl, show List.range 2 = [0, 1] from rfl]
    norm_num
  refine ⟨rfl, by decide, hsam, ?_⟩
  rw [hsam]
  norm_num

/-- **C4** (amended): the two scanner variants do not share one sampling
convention.  `calculate_transit_waveforms` has no step parameter: it steps
one day at a time and samples the end date inclusively, visiting
`(e - s + 1)` dates; `calculate_transit_waveform` iterates
`np.arange(julian_start, julian_end, interval_hours / 24)` with the default
`interval_hours = 6` (not 24), and every sample lies strictly before
`julian_end` — its end is exclusive. -/
theorem scan_sampling_conventions :
    (∀ (oracle : ℤ → String → ℚ) (natal : List (String × ℚ)) (s e : ℤ),
        calculate_transit_waveforms oracle natal s e
          = (scan_dates s e).flatMap (scanDay oracle natal)) ∧
    (∀ s e : ℤ, s ≤ e →
        e ∈ scan_dates s e ∧ (scan_dates s e).length = (e - s + 1).toNat) ∧
    (∀ js je ih : ℚ, 0 < ih →
        ∀ x ∈ calculate_transit_waveform_samples js je ih, x < je) := by
  refine ⟨?_, ?_, ?_⟩
  · intro oracle natal s e
    exact scanFrom_eq_flatMap oracle natal _ s
  · intro s e hse
    unfold scan_dates
    rw [mem_datesFrom, length_datesFrom]
    refine ⟨⟨hse, ?_⟩, ?_⟩ <;> omega
  · intro js je ih hih x hx
    simp only [calculate_transit_waveform_samples, np_arange, List.mem_map,
      List.mem_range] at hx
    obtain ⟨i, hi, rfl⟩ := hx
    have hstep : (0 : ℚ) < ih / 24 := by positivity
    have h1 : (i : ℤ) + 1 ≤ ⌈(je - js) / (ih / 24)⌉ := by omega
    have h3 : (i : ℚ) + 1 ≤ (⌈(je - js) / (ih / 24)⌉ : ℚ) := by exact_mod_cast h1
    have h2 : (⌈(je - js) / (ih / 24)⌉ : ℚ) < (je - js) / (ih / 24) + 1 :=
      Int.ceil_lt_add_one _
    have hlt : (i : ℚ) < (je - js) / (ih / 24) := by linarith
    have h5 := mul_lt_mul_of_pos_right hlt hstep
    rw [div_mul_cancel₀ _ (ne_of_gt hstep)] at h5
    linarith

theorem scan_sampling_conventions_witness :
    ((2 : ℤ) ∈ scan_dates 0 2 ∧ (scan_dates 0 2).length = ((2 : ℤ) - 0 + 1).toNat) ∧
    (∀ x ∈ calculate_transit_waveform_samples 0 2 24, x < 2) :=
  ⟨scan_sampling_conventions.2.1 0 2 (by norm_num),
   fun x hx => scan_sampling_conventions.2.2 0 2 24 (by norm_num) x hx⟩

/-! ### C5: determinism and emission order of the scanner -/

theorem aspectCheck_eq_some {t n : ℚ} {c : ℤ} {p np : String} {a : String × ℚ}
    {e : TransitEvent} (h : aspectCheck t n c p np a = some e) :
    e.date = c ∧ e.transiting_planet = p ∧ e.natal_planet = np ∧ e.aspect = a.1 := by
  simp only [aspectCheck] at h
  by_cases hc : angle_diff_of t n ≤ (orb.lookup a.1).getD 0
  · rw [if_pos hc] at h
    cases h
    exact ⟨rfl, rfl, rfl, rfl⟩
  · rw [if_neg hc] at h
    exact Option.noConfusion h

theorem mem_scanNatal {t : ℚ} {c : ℤ} {p : String} {np : String × ℚ}
    {e : TransitEvent} (h : e ∈ scanNatal t c p np) :
    e.date = c ∧ e.transiting_planet = p ∧ e.natal_planet = np.1 ∧
      e.aspect ∈ aspects.map Prod.fst := by
  unfold scanNatal at h
  rw [List.mem_filterMap] at h
  obtain ⟨a, ha, hsome⟩ := h
  obtain ⟨h1, h2, h3, h4⟩ := aspectCheck_eq_some hsome
  refine ⟨h1, h2, h3, ?_⟩
  rw [h4]
  exact List.mem_map_of_mem Prod.fst ha

theorem aspects_pairwise_index :
    List.Pairwise (fun a₁ a₂ : String × ℚ =>
      (aspects.map Prod.fst).indexOf a₁.1 < (aspects.map Prod.fst).indexOf a₂.1)
      aspects := by decide

theorem planets_pairwise_index :
    List.Pairwise (fun p q => planets.indexOf p < planets.indexOf q) planets := by
  decide

theorem pairwise_scanNatal (names : List String) (t : ℚ) (c : ℤ) (p : String)
    (np : String × ℚ) :
    List.Pairwise (event_before names) (scanNatal t c p np) := by
  unfold scanNatal
  rw [List.pairwise_filterMap]
  refine aspects_pairwise_index.imp_of_mem ?_
  intro a₁ a₂ _ _ hlt e₁ h₁ e₂ h₂
  obtain ⟨d₁, p₁, n₁, s₁⟩ := aspectCheck_eq_some h₁
  obtain ⟨d₂, p₂, n₂, s₂⟩ := aspectCheck_eq_some h₂
  right
  refine ⟨by rw [d₁, d₂], ?_⟩
  right
  refine ⟨by rw [p₁, p₂], ?_⟩
  right
  refine ⟨by rw [n₁, n₂], ?_⟩
  rw [s₁, s₂]
  exact hlt

/-- A list of pairs with pairwise-distinct keys is strictly ordered under
`indexOf` of its own key list. -/
theorem pairwise_indexOf_names :
    ∀ (l : List (String × ℚ)), (l.map Prod.fst).Nodup →
      List.Pairwise (fun a b =>
        (l.map Prod.fst).indexOf a.1 < (l.map Prod.fst).indexOf b.1) l := by
  intro l
  induction l with
  | nil => intro _; exact List.Pairwise.nil
  | cons x t ih =>
    intro hnd
    rw [List.map_cons, List.nodup_cons] at hnd
    obtain ⟨hx, ht⟩ := hnd
    constructor
    · intro b hb
      have hbx : b.1 ≠ x.1 := by
        intro hcontra
        exact hx (hcontra ▸ List.mem_map_of_mem Prod.fst hb)
      rw [List.map_cons, List.indexOf_cons_self,
        List.indexOf_cons_ne _ (Ne.symm hbx)]
      omega
    · refine (ih ht).imp_of_mem ?_
      intro a b ha hb hlt
      have hax : a.1 ≠ x.1 := by
        intro hcontra
        exact hx (hcontra ▸ List.mem_map_of_mem Prod.fst ha)
      have hbx : b.1 ≠ x.1 := by
        intro hcontra
        exact hx (hcontra ▸ List.mem_map_of_mem Prod.fst hb)
      rw [List.map_cons, List.indexOf_cons_ne _ (Ne.symm hax),
        List.indexOf_cons_ne _ (Ne.symm hbx)]
      omega

theorem pairwise_scanDay (o : ℤ → String → ℚ) (natal : List (String × ℚ))
    (hnd : (natal.map Prod.fst).Nodup) (c : ℤ) :
    List.Pairwise (event_before (natal.map Prod.fst)) (scanDay o natal c) := by
  unfold scanDay
  rw [List.pairwise_flatMap]
  constructor
  · intro p hp
    rw [List.pairwise_flatMap]
    constructor
    · intro np hnp
      exact pairwise_scanNatal _ _ _ _ _
    · refine (pairwise_indexOf_names natal hnd).imp_of_mem ?_
      intro np₁ np₂ h₁ h₂ hlt e₁ he₁ e₂ he₂
      obtain ⟨d₁, pl₁, n₁, _⟩ := mem_scanNatal he₁
      obtain ⟨d₂, pl₂, n₂, _⟩ := mem_scanNatal he₂
      right
      refine ⟨by rw [d₁, d₂], ?_⟩
      right
      refine ⟨by rw [pl₁, pl₂], ?_⟩
      left
      rw [n₁, n₂]
      exact hlt
  · refine planets_pairwise_index.imp_of_mem ?_
    intro p₁ p₂ h₁ h₂ hlt e₁ he₁ e₂ he₂
    rw [List.mem_flatMap] at he₁ he₂
    obtain ⟨np₁, _, hm₁⟩ := he₁
    obtain ⟨np₂, _, hm₂⟩ := he₂
    obtain ⟨d₁, pl₁, _, _⟩ := mem_scanNatal hm₁
    obtain ⟨d₂, pl₂, _, _⟩ := mem_scanNatal hm₂
    right
    refine ⟨by rw [d₁, d₂], ?_⟩
    left
    rw [pl₁, pl₂]
    exact hlt

theorem scanDay_date {o : ℤ → String → ℚ} {natal : List (String × ℚ)} {c : ℤ}
    {e : TransitEvent} (h : e ∈ scanDay o natal c) : e.date = c := by
  unfold scanDay at h
  rw [List.mem_flatMap] at h
  obtain ⟨p, _, hp⟩ := h
  rw [List.mem_flatMap] at hp
  obtain ⟨np, _, hnp⟩ := hp
  exact (mem_scanNatal hnp).1

theorem scanFrom_date_le {o : ℤ → String → ℚ} {natal : List (String × ℚ)} :
    ∀ {fuel : ℕ} {c : ℤ} {e : TransitEvent},
      e ∈ scanFrom o natal c fuel → c ≤ e.date := by
  intro fuel
  induction fuel with
  | zero => intro c e h; exact absurd h (List.not_mem_nil e)
  | succ n ih =>
    intro c e h
    simp only [scanFrom, List.mem_append] at h
    rcases h with h | h
    · rw [scanDay_date h]
    · have := ih h
      omega

theorem pairwise_scanFrom (o : ℤ → String → ℚ) (natal : List (String × ℚ))
    (hnd : (natal.map Prod.fst).Nodup) :
    ∀ (fuel : ℕ) (c : ℤ),
      List.Pairwise (event_before (natal.map Prod.fst)) (scanFrom o natal c fuel) := by
  intro fuel
  induction fuel with
  | zero => intro c; exact List.Pairwise.nil
  | succ n ih =>
    intro c
    simp only [scanFrom]
    rw [List.pairwise_append]
    refine ⟨pairwise_scanDay o natal hnd c, ih (c + 1), ?_⟩
    intro e₁ h₁ e₂ h₂
    left
    have hd₁ := scanDay_date h₁
    have hd₂ := scanFrom_date_le h₂
    omega

/-- **C5**: the scan is deterministic — two runs on identical inputs yield
the identical event list — and the emitted events are ordered: by date
ascending, and within one date by transiting-planet iteration order, then
natal-body iteration order, then aspect-kind iteration order (the natal
mapping, a Python dict, has pairwise-distinct keys). -/
theorem scan_deterministic_and_ordered (oracle oracle2 : ℤ → String → ℚ)
    (natal natal2 : List (String × ℚ)) (s e : ℤ)
    (hnd : (natal.map Prod.fst).Nodup)
    (ho : oracle = oracle2) (hn : natal = natal2) :
    calculate_transit_waveforms oracle natal s e
      = calculate_transit_waveforms oracle2 natal2 s e ∧
    List.Pairwise (event_before (natal.map Prod.fst))
      (calculate_transit_waveforms oracle natal s e) := by
  subst ho
  subst hn
  exact ⟨rfl, pairwise_scanFrom oracle natal hnd _ _⟩

theorem scan_deterministic_and_ordered_witness :
    calculate_transit_waveforms (fun _ _ => 0) [("Sun", 0)] 0 1
      = calculate_transit_waveforms (fun _ _ => 0) [("Sun", 0)] 0 1 ∧
    List.Pairwise (event_before ["Sun"])
      (calculate_transit_waveforms (fun _ _ => 0) [("Sun", 0)] 0 1) :=
  scan_deterministic_and_ordered (fun _ _ => 0) (fun _ _ => 0)
    [("Sun", 0)] [("Sun", 0)] 0 1 (by decide) rfl rfl

/-! ### C6 and C8: the natal chart builder and the observer state -/

theorem calculate_natal_chart_eq_badtime (w : SweWorld) (st : SweState)
    (dob tob : String) (lat lon : ℚ) (h1 : w.strptime_dob_tob dob tob = none) :
    calculate_natal_chart w st dob tob lat lon
      = (st, .error "Error calculating natal chart: invalid datetime") := by
  unfold calculate_natal_chart
  rw [h1]

theorem calculate_natal_chart_eq_no_timezone (w : SweWorld) (st : SweState)
    (dob tob : String) (lat lon : ℚ) (dt : PyDateTime)
    (h1 : w.strptime_dob_tob dob tob = some dt)
    (h2 : w.timezone_at lat lon = none) :
    calculate_natal_chart w st dob tob lat lon
      = (st, .error
          "Error calculating natal chart: Could not determine timezone for the given location.") := by
  unfold calculate_natal_chart
  rw [h1, h2]

theorem calculate_natal_chart_eq_bad_localize (w : SweWorld) (st : SweState)
    (dob tob : String) (lat lon : ℚ) (dt : PyDateTime) (tzname : String)
    (msg : String) (h1 : w.strptime_dob_tob dob tob = some dt)
    (h2 : w.timezone_at lat lon = some tzname)
    (h3 : w.localize tzname dt = .error msg) :
    calculate_natal_chart w st dob tob lat lon
      = (st, .error ("Error calculating natal chart: " ++ msg)) := by
  simp only [calculate_natal_chart, h1, h2, h3]

theorem calculate_natal_chart_eq_run (w : SweWorld) (st : SweState)
    (dob tob : String) (lat lon : ℚ) (dt : PyDateTime) (tzname : String)
    (aware : PyDateTime) (h1 : w.strptime_dob_tob dob tob = some dt)
    (h2 : w.timezone_at lat lon = some tzname)
    (h3 : w.localize tzname dt = .ok aware) :
    calculate_natal_chart w st dob tob lat lon
      = (⟨some (lon, lat, 0)⟩,
         match chartLoop w ⟨some (lon, lat, 0)⟩
             (w.julday (w.astimezone_utc aware).year (w.astimezone_utc aware).month
               (w.astimezone_utc aware).day
               ((w.astimezone_utc aware).hour + (w.astimezone_utc aware).minute / 60))
             bodies with
         | .error e => .error ("Error calculating natal chart: " ++ e)
         | .ok positions => .ok positions) := by
  simp only [calculate_natal_chart, h1, h2, h3]
  cases chartLoop w ⟨some (lon, lat, 0)⟩
      (w.julday (w.astimezone_utc aware).year (w.astimezone_utc aware).month
        (w.astimezone_utc aware).day
        ((w.astimezone_utc aware).hour + (w.astimezone_utc aware).minute / 60))
      bodies <;> rfl

theorem chartLoop_ok_names (w : SweWorld) (st : SweState) (jd : ℚ) :
    ∀ (l : List (String × ℕ)) (ps : List (String × String)),
      chartLoop w st jd l = .ok ps → ps.map Prod.fst = l.map Prod.fst := by
  intro l
  induction l with
  | nil =>
    intro ps h
    cases h
    rfl
  | cons b rest ih =>
    intro ps h
    obtain ⟨body, code⟩ := b
    simp only [chartLoop] at h
    split at h
    · exact Except.noConfusion h
    · split at h
      · exact Except.noConfusion h
      · split at h
        · exact Except.noConfusion h
        · rename_i ps2 hrest
          cases h
          simp only [List.map_cons]
          rw [ih ps2 hrest]

theorem chartLoop_not_ok (w : SweWorld) (st : SweState) (jd : ℚ) :
    ∀ (l : List (String × ℕ)) (b : String × ℕ), b ∈ l →
      (∃ msg, w.calc_ut st.observer jd b.2 = .error msg) →
      ∀ ps, chartLoop w st jd l ≠ .ok ps := by
  intro l
  induction l with
  | nil => intro b hb; exact absurd hb (List.not_mem_nil b)
  | cons hd rest ih =>
    intro b hb hfail ps h
    obtain ⟨body, code⟩ := hd
    simp only [chartLoop] at h
    rcases List.mem_cons.mp hb with hb | hb
    · obtain ⟨msg, hmsg⟩ := hfail
      rw [hb] at hmsg
      rw [hmsg] at h
      exact Except.noConfusion h
    · split at h
      · exact Except.noConfusion h
      · split at h
        · exact Except.noConfusion h
        · split at h
          · exact Except.noConfusion h
          · rename_i ps2 hrest
            exact ih b hb hfail ps2 hrest

/-- **C6**: the chart build is all-or-nothing.  When no timezone covers the
coordinates the whole build fails with the underlying location error; a
successful build always carries exactly the ten bodies, in table order; and
an ephemeris failure for any single body prevents any successful result —
the caller never sees a partial chart. -/
theorem natal_chart_all_or_nothing (w : SweWorld) (st : SweState)
    (dob tob : String) (lat lon : ℚ) :
    (∀ dt, w.strptime_dob_tob dob tob = some dt → w.timezone_at lat lon = none →
      (calculate_natal_chart w st dob tob lat lon).2
        = .error
          "Error calculating natal chart: Could not determine timezone for the given location.") ∧
    (∀ ps, (calculate_natal_chart w st dob tob lat lon).2 = .ok ps →
      ps.map Prod.fst = ["Sun", "Moon", "Mercury", "Venus", "Mars",
        "Jupiter", "Saturn", "Uranus", "Neptune", "Pluto"]) ∧
    (∀ (dt : PyDateTime) (tzname : String) (aware : PyDateTime),
      w.strptime_dob_tob dob tob = some dt →
      w.timezone_at lat lon = some tzname → w.localize tzname dt = .ok aware →
      ∀ b ∈ bodies,
        (∃ msg, w.calc_ut (some (lon, lat, 0))
            (w.julday (w.astimezone_utc aware).year (w.astimezone_utc aware).month
              (w.astimezone_utc aware).day
              ((w.astimezone_utc aware).hour + (w.astimezone_utc aware).minute / 60))
            b.2 = .error msg) →
        ∀ ps, (calculate_natal_chart w st dob tob lat lon).2 ≠ .ok ps) := by
  refine ⟨?_, ?_, ?_⟩
  · intro dt h1 h2
    rw [calculate_natal_chart_eq_no_timezone w st dob tob lat lon dt h1 h2]
  · intro ps hok
    cases h1 : w.strptime_dob_tob dob tob with
    | none =>
      rw [calculate_natal_chart_eq_badtime w st dob tob lat lon h1] at hok
      exact Except.noConfusion hok
    | some dt =>
      cases h2 : w.timezone_at lat lon with
      | none =>
        rw [calculate_natal_chart_eq_no_timezone w st dob tob lat lon dt h1 h2] at hok
        exact Except.noConfusion hok
      | some tzname =>
        cases h3 : w.localize tzname dt with
        | error msg =>
          rw [calculate_natal_chart_eq_bad_localize w st dob tob lat lon dt tzname
            msg h1 h2 h3] at hok
          exact Except.noConfusion hok
        | ok aware =>
          rw [calculate_natal_chart_eq_run w st dob tob lat lon dt tzname aware
            h1 h2 h3] at hok
          cases hcl : chartLoop w ⟨some (lon, lat, 0)⟩
              (w.julday (w.astimezone_utc aware).year (w.astimezone_utc aware).month
                (w.astimezone_utc aware).day
                ((w.astimezone_utc aware).hour + (w.astimezone_utc aware).minute / 60))
              bodies with
          | error e =>
            rw [hcl] at hok
            exact Except.noConfusion hok
          | ok ps2 =>
            rw [hcl] at hok
            have hok2 : ps2 = ps := by simpa using hok
            subst hok2
            rw [chartLoop_ok_names w ⟨some (lon, lat, 0)⟩ _ bodies ps2 hcl]
            rfl
  · intro dt tzname aware h1 h2 h3 b hb hfail ps hok
    rw [calculate_natal_chart_eq_run w st dob tob lat lon dt tzname aware
      h1 h2 h3] at hok
    cases hcl : chartLoop w ⟨some (lon, lat, 0)⟩
        (w.julday (w.astimezone_utc aware).year (w.astimezone_utc aware).month
          (w.astimezone_utc aware).day
          ((w.astimezone_utc aware).hour + (w.astimezone_utc aware).minute / 60))
        bodies with
    | error e =>
      rw [hcl] at hok
      exact Except.noConfusion hok
    | ok ps2 =>
      exact chartLoop_not_ok w ⟨some (lon, lat, 0)⟩ _ bodies b hb hfail ps2 hcl

/-- A concrete oracle assembly under which every step of the chart pipeline
succeeds (every body is reported at longitude 0). -/
def wOK : SweWorld where
  strptime_dob_tob := fun _ _ => some ⟨2000, 1, 1, 12, 0⟩
  timezone_at := fun _ _ => some "Etc/UTC"
  localize := fun _ dt => .ok dt
  astimezone_utc := id
  julday := fun _ _ _ _ => 2451545
  calc_ut := fun _ _ _ => .ok 0

/-- `wOK` with a timezone lookup that finds nothing (a mid-ocean coordinate). -/
def wNoTz : SweWorld :=
  { wOK with timezone_at := fun _ _ => none }

theorem natal_chart_all_or_nothing_witness :
    (calculate_natal_chart wNoTz ⟨none⟩ "01.01.2000" "12:00" 0 0).2
      = .error
        "Error calculating natal chart: Could not determine timezone for the given location." :=
  (natal_chart_all_or_nothing wNoTz ⟨none⟩ "01.01.2000" "12:00" 0 0).1
    ⟨2000, 1, 1, 12, 0⟩ rfl rfl

/-- **C8** (amended): `swe.set_topo` is a write to process-global swisseph
state that `calculate_natal_chart` never restores: whenever the pipeline
reaches the ephemeris stage, the observer after the call equals
`(lon, lat, 0)` whatever it was before, so the setting persists into every
subsequent ephemeris computation. -/
theorem natal_chart_observer_leaks (w : SweWorld) (st : SweState)
    (dob tob : String) (lat lon : ℚ) (dt : PyDateTime) (tzname : String)
    (aware : PyDateTime) (h1 : w.strptime_dob_tob dob tob = some dt)
    (h2 : w.timezone_at lat lon = some tzname)
    (h3 : w.localize tzname dt = .ok aware) :
    (calculate_natal_chart w st dob tob lat lon).1 = ⟨some (lon, lat, 0)⟩ := by
  rw [calculate_natal_chart_eq_run w st dob tob lat lon dt tzname aware h1 h2 h3]

theorem natal_chart_observer_leaks_witness :
    (calculate_natal_chart wOK ⟨none⟩ "01.01.2000" "12:00" 20 10).1
      = ⟨some (10, 20, 0)⟩ :=
  natal_chart_observer_leaks wOK ⟨none⟩ "01.01.2000" "12:00" 20 10
    ⟨2000, 1, 1, 12, 0⟩ "Etc/UTC" ⟨2000, 1, 1, 12, 0⟩ rfl rfl rfl

/-- **C8** (counterexample): one chart computation at latitude 20,
longitude 10 leaves the global observer set to `(10, 20, 0)`, clobbering the
`(99, 99, 0)` another computation had set: the per-call setting leaks into
every subsequent ephemeris call, contradicting the claimed isolation. -/
theorem set_topo_leaks :
    (calculate_natal_chart wOK ⟨some (99, 99, 0)⟩ "01.01.2000" "12:00" 20 10).1
      = ⟨some (10, 20, 0)⟩ ∧
    (⟨some (10, 20, 0)⟩ : SweState) ≠ ⟨some (99, 99, 0)⟩ := by
  constructor
  · rw [calculate_natal_chart_eq_run wOK ⟨some (99, 99, 0)⟩ "01.01.2000" "12:00"
      20 10 ⟨2000, 1, 1, 12, 0⟩ "Etc/UTC" ⟨2000, 1, 1, 12, 0⟩ rfl rfl rfl]
  · intro h
    rw [SweState.mk.injEq, Option.some.injEq, Prod.mk.injEq] at h
    exact absurd h.1 (by norm_num)

/-! ### C7: error behaviour of the parser -/

theorem convert_eq_format_bad (p : String)
    (h : regexMatch (pyStrip p.data) = none) :
    convert_to_degrees p = .error ("Invalid position format: '" ++ p ++ "'") := by
  simp only [convert_to_degrees, h]

theorem convert_eq_sign_bad (p : String) (d : ℚ) (mins secs : Option ℚ)
    (sc : List Char) (h : regexMatch (pyStrip p.data) = some (d, mins, secs, sc))
    (h2 : List.indexOf? (⟨pyCapitalize sc⟩ : String) zodiac_signs = none) :
    convert_to_degrees p
      = .error ("Invalid zodiac sign: '" ++ (⟨pyCapitalize sc⟩ : String)
          ++ "' in position '" ++ p ++ "'") := by
  simp only [convert_to_degrees, h, h2]

theorem convert_eq_ok (p : String) (d : ℚ) (mins secs : Option ℚ)
    (sc : List Char) (i : ℕ)
    (h : regexMatch (pyStrip p.data) = some (d, mins, secs, sc))
    (h2 : List.indexOf? (⟨pyCapitalize sc⟩ : String) zodiac_signs = some i) :
    convert_to_degrees p
      = .ok (d + (mins.getD 0) / 60 + (secs.getD 0) / 3600 + (i : ℚ) * 30) := by
  simp only [convert_to_degrees, h, h2]

/-- **C7**: parsing fails (with a `ValueError`, never a silent default)
exactly when the regex pattern does not match the stripped input or when the
internally-capitalized sign name is not one of the 12 canonical zodiac
names; on success the result is
degrees + minutes/60 + seconds/3600 + signIndex × 30, with absent minutes
and seconds defaulting to 0 (`Option.getD 0`). -/
theorem convert_to_degrees_exactness (position : String) :
    ((∃ q, convert_to_degrees position = .ok q) ↔
      (∃ (d : ℚ) (mins secs : Option ℚ) (sc : List Char),
        regexMatch (pyStrip position.data) = some (d, mins, secs, sc) ∧
        (⟨pyCapitalize sc⟩ : String) ∈ zodiac_signs)) ∧
    (∀ (d : ℚ) (mins secs : Option ℚ) (sc : List Char) (i : ℕ),
      regexMatch (pyStrip position.data) = some (d, mins, secs, sc) →
      List.indexOf? (⟨pyCapitalize sc⟩ : String) zodiac_signs = some i →
      convert_to_degrees position
        = .ok (d + (mins.getD 0) / 60 + (secs.getD 0) / 3600 + (i : ℚ) * 30)) := by
  constructor
  · constructor
    · rintro ⟨q, hq⟩
      cases hm : regexMatch (pyStrip position.data) with
      | none =>
        rw [convert_eq_format_bad position hm] at hq
        exact Except.noConfusion hq
      | some g =>
        obtain ⟨d, mins, secs, sc⟩ := g
        cases hidx : List.indexOf? (⟨pyCapitalize sc⟩ : String) zodiac_signs with
        | none =>
          rw [convert_eq_sign_bad position d mins secs sc hm hidx] at hq
          exact Except.noConfusion hq
        | some i =>
          refine ⟨d, mins, secs, sc, rfl, ?_⟩
          by_contra hmem
          have hnone : List.indexOf? (⟨pyCapitalize sc⟩ : String) zodiac_signs
              = none := by
            rw [List.indexOf?_eq_none_iff]
            intro x hx
            simp only [beq_iff_eq]
            intro hxe
            exact hmem (hxe ▸ hx)
          rw [hnone] at hidx
          exact Option.noConfusion hidx
    · rintro ⟨d, mins, secs, sc, hm, hmem⟩
      cases hidx : List.indexOf? (⟨pyCapitalize sc⟩ : String) zodiac_signs with
      | none =>
        rw [List.indexOf?_eq_none_iff] at hidx
        exact absurd (by simp : ((⟨pyCapitalize sc⟩ : String)
          == (⟨pyCapitalize sc⟩ : String)) = true) (hidx _ hmem)
      | some i =>
        exact ⟨_, convert_eq_ok position d mins secs sc i hm hidx⟩
  · intro d mins secs sc i hm hidx
    exact convert_eq_ok position d mins secs sc i hm hidx

theorem convert_to_degrees_exactness_witness :
    convert_to_degrees "10° 30' tAuRus"
      = .ok ((10 : ℚ) + ((some (30 : ℚ)).getD 0) / 60
          + ((none : Option ℚ).getD 0) / 3600 + ((1 : ℕ) : ℚ) * 30) :=
  (convert_to_degrees_exactness "10° 30' tAuRus").2 10 (some 30) none
    ("tAuRus".data) 1 rfl rfl

/-! ### C2: the format/parse round trip

Character-level facts about what the printer emits and how the parser
consumes it. -/

/-- The head of the list (if any) can neither extend a digit run nor be the
regex's decimal point: the shape of whatever legally follows a numeric atom. -/
def headSafe : List Char → Bool
  | [] => true
  | c :: _ => !c.isDigit && !(c == '.')

theorem isDigit_digitChar : ∀ k, k < 10 → (digitChar k).isDigit = true := by decide

theorem isPySpace_digitChar : ∀ k, k < 10 → isPySpace (digitChar k) = false := by
  decide

theorem digitsToNat_one : ∀ k, k < 10 → digitsToNat 0 [digitChar k] = k := by decide

theorem digitsToNat_two : ∀ a, a < 10 → ∀ b, b < 10 →
    digitsToNat 0 [digitChar a, digitChar b] = 10 * a + b := by decide

theorem digitChar_toNat : ∀ k, k < 10 → (digitChar k).toNat - 48 = k := by decide

theorem natStr_lt100 : ∀ n, n < 100 → (natStr n).data
    = if n < 10 then [digitChar n]
      else [digitChar (n / 10), digitChar (n % 10)] := by decide

/-- The head of the list (if any) is not a digit: a digit run stops here. -/
def headNotDigit : List Char → Bool
  | [] => true
  | c :: _ => !c.isDigit

theorem headSafe_not_digit (r : List Char) (hr : headSafe r = true) :
    headNotDigit r = true := by
  cases r with
  | nil => rfl
  | cons c t =>
    simp only [headSafe, Bool.and_eq_true] at hr
    simp only [headNotDigit, hr.1]

theorem headSafe_ne_dot {c : Char} {t : List Char}
    (hr : headSafe (c :: t) = true) : ¬(c = '.') := by
  simp only [headSafe, Bool.and_eq_true, Bool.not_eq_true'] at hr
  simpa using hr.2

theorem takeDigits_stop (r : List Char) (hr : headNotDigit r = true) :
    takeDigits r = ([], r) := by
  cases r with
  | nil => rfl
  | cons c t =>
    simp only [headNotDigit, Bool.not_eq_true'] at hr
    unfold takeDigits
    rw [List.takeWhile_cons, if_neg (by simp [hr]),
      List.dropWhile_cons, if_neg (by simp [hr])]

theorem takeDigits_cons_digit (c : Char) (hc : c.isDigit = true) (t : List Char) :
    takeDigits (c :: t) = (c :: (takeDigits t).1, (takeDigits t).2) := by
  unfold takeDigits
  rw [List.takeWhile_cons, if_pos hc, List.dropWhile_cons, if_pos hc]

theorem parseNumber_digits_one (k : ℕ) (hk : k < 10) (r : List Char)
    (hr : headSafe r = true) :
    parseNumber (digitChar k :: r) = some ((k : ℚ), r) := by
  unfold parseNumber
  rw [takeDigits_cons_digit _ (isDigit_digitChar k hk),
    takeDigits_stop r (headSafe_not_digit r hr)]
  cases r with
  | nil => simp [digitsToNat_one k hk]
  | cons c t => simp [digitsToNat_one k hk, headSafe_ne_dot hr]

theorem parseNumber_digits_two (a : ℕ) (ha : a < 10) (b : ℕ) (hb : b < 10)
    (r : List Char) (hr : headSafe r = true) :
    parseNumber (digitChar a :: digitChar b :: r)
      = some (((10 * a + b : ℕ) : ℚ), r) := by
  unfold parseNumber
  rw [takeDigits_cons_digit _ (isDigit_digitChar a ha),
    takeDigits_cons_digit _ (isDigit_digitChar b hb),
    takeDigits_stop r (headSafe_not_digit r hr)]
  cases r with
  | nil => simp [digitsToNat_two a ha b hb]
  | cons c t => simp [digitsToNat_two a ha b hb, headSafe_ne_dot hr]

theorem parseNumber_natStr (n : ℕ) (hn : n < 100) (r : List Char)
    (hr : headSafe r = true) :
    parseNumber ((natStr n).data ++ r) = some ((n : ℚ), r) := by
  rw [natStr_lt100 n hn]
  by_cases h10 : n < 10
  · rw [if_pos h10]
    exact parseNumber_digits_one n h10 r hr
  · rw [if_neg h10]
    have h1 : n / 10 < 10 := by omega
    have h2 : n % 10 < 10 := by omega
    rw [show ([digitChar (n / 10), digitChar (n % 10)] : List Char) ++ r
        = digitChar (n / 10) :: digitChar (n % 10) :: r from rfl]
    rw [parseNumber_digits_two (n / 10) h1 (n % 10) h2 r hr]
    have hmod : 10 * (n / 10) + n % 10 = n := by omega
    rw [hmod]

theorem fracValue_two (a : ℕ) (ha : a < 10) (b : ℕ) (hb : b < 10) :
    fracValue [digitChar a, digitChar b] = ((10 * a + b : ℕ) : ℚ) / 100 := by
  simp only [fracValue]
  rw [digitChar_toNat a ha, digitChar_toNat b hb]
  push_cast
  ring

theorem parseNumber_frac (n : ℕ) (hn : n < 100) (a : ℕ) (ha : a < 10)
    (b : ℕ) (hb : b < 10) (r : List Char) (hr : headSafe r = true) :
    parseNumber ((natStr n).data ++ '.' :: digitChar a :: digitChar b :: r)
      = some ((n : ℚ) + ((10 * a + b : ℕ) : ℚ) / 100, r) := by
  have hfrac : takeDigits (digitChar a :: digitChar b :: r)
      = ([digitChar a, digitChar b], r) := by
    rw [takeDigits_cons_digit _ (isDigit_digitChar a ha),
      takeDigits_cons_digit _ (isDigit_digitChar b hb),
      takeDigits_stop r (headSafe_not_digit r hr)]
  rw [natStr_lt100 n hn]
  by_cases h10 : n < 10
  · rw [if_pos h10]
    show parseNumber (digitChar n :: '.' :: digitChar a :: digitChar b :: r) = _
    unfold parseNumber
    rw [takeDigits_cons_digit _ (isDigit_digitChar n h10),
      takeDigits_stop ('.' :: digitChar a :: digitChar b :: r) rfl]
    simp [hfrac, digitsToNat_one n h10, fracValue_two a ha b hb]
  · rw [if_neg h10]
    have h1 : n / 10 < 10 := by omega
    have h2 : n % 10 < 10 := by omega
    show parseNumber (digitChar (n / 10) :: digitChar (n % 10) ::
      '.' :: digitChar a :: digitChar b :: r) = _
    unfold parseNumber
    rw [takeDigits_cons_digit _ (isDigit_digitChar _ h1),
      takeDigits_cons_digit _ (isDigit_digitChar _ h2),
      takeDigits_stop ('.' :: digitChar a :: digitChar b :: r) rfl]
    simp only [hfrac, digitsToNat_two (n / 10) h1 (n % 10) h2,
      fracValue_two a ha b hb]
    have hmod : 10 * (n / 10) + n % 10 = n := by omega
    rw [hmod]
    simp

theorem dropWhile_space_cons (r : List Char) :
    List.dropWhile isPySpace (' ' :: r) = List.dropWhile isPySpace r := by
  rw [List.dropWhile_cons, if_pos (show isPySpace ' ' = true from rfl)]

theorem dropWhile_space_digit (k : ℕ) (hk : k < 10) (r : List Char) :
    List.dropWhile isPySpace (digitChar k :: r) = digitChar k :: r := by
  rw [List.dropWhile_cons, if_neg (by simp [isPySpace_digitChar k hk])]

theorem dropWhile_space_natStr (n : ℕ) (hn : n < 100) (r : List Char) :
    List.dropWhile isPySpace ((natStr n).data ++ r) = (natStr n).data ++ r := by
  rw [natStr_lt100 n hn]
  by_cases h10 : n < 10
  · rw [if_pos h10]
    exact dropWhile_space_digit n h10 r
  · rw [if_neg h10]
    exact dropWhile_space_digit (n / 10) (by omega) _

theorem dropWhile_append_of_ne (p : Char → Bool) (x y : List Char) (hx : x ≠ [])
    (h : List.dropWhile p x = x) : List.dropWhile p (x ++ y) = x ++ y := by
  cases x with
  | nil => exact absurd rfl hx
  | cons c t =>
    rw [List.dropWhile_cons] at h
    by_cases hc : p c = true
    · rw [if_pos hc] at h
      have hlen := congrArg List.length h
      have h2 := (List.dropWhile_sublist (l := t) p).length_le
      simp at hlen
      omega
    · rw [List.cons_append, List.dropWhile_cons, if_neg hc]

theorem pyStrip_noop (l : List Char)
    (h1 : List.dropWhile isPySpace l = l)
    (h2 : List.dropWhile isPySpace l.reverse = l.reverse) :
    pyStrip l = l := by
  unfold pyStrip
  rw [h1, h2, List.reverse_reverse]

/-- The well-formedness of each sign name the codec emits: all letters,
nonempty, space-free at both ends, and fixed by Python's `capitalize`. -/
theorem zodiac_signs_wf : ∀ s ∈ zodiac_signs,
    s.data.takeWhile Char.isAlpha = s.data ∧ s.data.isEmpty = false ∧
    List.dropWhile isPySpace s.data = s.data ∧
    List.dropWhile isPySpace s.data.reverse = s.data.reverse ∧
    (⟨pyCapitalize s.data⟩ : String) = s := by decide

theorem zodiac_indexOf : ∀ (i : ℕ) (h : i < zodiac_signs.length),
    List.indexOf? zodiac_signs[i] zodiac_signs = some i := by decide

/-- The regex applied to exactly the shape of string the formatter emits:
one or two degree digits, `° `, one or two minute digits, an apostrophe and
a space, one or two second digits, a dot, two fractional digits, `" `, then
the sign letters. -/
theorem regexMatch_canonical (dn mn I a b : ℕ) (sc : List Char)
    (hdn : dn < 100) (hmn : mn < 100) (hI : I < 100) (ha : a < 10) (hb : b < 10)
    (hsc1 : sc.takeWhile Char.isAlpha = sc) (hsc2 : sc.isEmpty = false)
    (hsc3 : List.dropWhile isPySpace sc = sc) :
    regexMatch ((natStr dn).data ++ '°' :: ' ' :: ((natStr mn).data ++ '\'' :: ' ' ::
        ((natStr I).data ++ '.' :: digitChar a :: digitChar b :: '"' :: ' ' :: sc)))
      = some ((dn : ℚ), some ((mn : ℚ)),
          some ((I : ℚ) + ((10 * a + b : ℕ) : ℚ) / 100), sc) := by
  have h1 := parseNumber_natStr dn hdn ('°' :: ' ' :: ((natStr mn).data ++ '\'' :: ' ' ::
    ((natStr I).data ++ '.' :: digitChar a :: digitChar b :: '"' :: ' ' :: sc))) rfl
  have h2 := parseNumber_natStr mn hmn ('\'' :: ' ' ::
    ((natStr I).data ++ '.' :: digitChar a :: digitChar b :: '"' :: ' ' :: sc)) rfl
  have h3 := parseNumber_frac I hI a ha b hb ('"' :: ' ' :: sc) rfl
  simp only [regexMatch, h1, h2, h3, parseOptNumber, dropWhile_space_cons,
    dropWhile_space_natStr mn hmn, dropWhile_space_natStr I hI, hsc3, hsc1, hsc2,
    if_true, if_pos, reduceIte, Bool.false_eq_true, if_false]

/-- **C2**: the format/parse round trip.  For every longitude `L ∈ [0, 360)`,
formatting with `degrees_to_zodiac` and parsing back with
`convert_to_degrees` succeeds and reproduces `L` within one arc-second
(1/3600°, the slack being only the 2-decimal rounding of the seconds);
and on Scenario A's concrete string the round trip is exact in both
directions (`1226451/60000 = 20.44085 ≈ 20.4408`). -/
theorem position_roundtrip :
    (∀ L : ℚ, 0 ≤ L → L < 360 →
      ∃ str v, degrees_to_zodiac L = some str ∧
        convert_to_degrees str = .ok v ∧ |v - L| ≤ 1 / 3600) ∧
    convert_to_degrees "20° 26' 27.06\" Aries" = .ok (1226451 / 60000) ∧
    degrees_to_zodiac (1226451 / 60000) = some "20° 26' 27.06\" Aries" := by
  refine ⟨?_, ?_, ?_⟩
  · intro L h0 h360
    -- the in-sign position and its sexagesimal decomposition
    set P : ℚ := pymod L 30 with hP
    have hpos0 : 0 ≤ P := pymod_nonneg L 30 (by norm_num)
    have hpos30 : P < 30 := pymod_lt L 30 (by norm_num)
    set d : ℤ := ⌊P⌋ with hd
    have hd0 : 0 ≤ d := Int.floor_nonneg.mpr hpos0
    have hd30 : d < 30 := by
      rw [hd]
      exact Int.floor_lt.mpr (by push_cast; linarith)
    have hdle : (d : ℚ) ≤ P := Int.floor_le P
    have hdfr : P - (d : ℚ) < 1 := by
      have := Int.fract_lt_one P
      rw [Int.fract] at this
      exact this
    set m : ℤ := ⌊(P - (d : ℚ)) * 60⌋ with hm
    have hm0 : 0 ≤ m := Int.floor_nonneg.mpr (by nlinarith)
    have hm60 : m < 60 := by
      rw [hm]
      exact Int.floor_lt.mpr (by push_cast; nlinarith)
    have hmle : (m : ℚ) ≤ (P - (d : ℚ)) * 60 := Int.floor_le _
    have hmfr : (P - (d : ℚ)) * 60 - (m : ℚ) < 1 := by
      have := Int.fract_lt_one ((P - (d : ℚ)) * 60)
      rw [Int.fract] at this
      exact this
    set s : ℚ := (P - (d : ℚ) - (m : ℚ) / 60) * 3600 with hs
    have hsid : s = ((P - (d : ℚ)) * 60 - (m : ℚ)) * 60 := by rw [hs]; ring
    have hs0 : 0 ≤ s := by rw [hsid]; nlinarith
    have hs60 : s < 60 := by rw [hsid]; nlinarith
    set c : ℤ := round (s * 100) with hc
    have hc0 : 0 ≤ c := by
      rw [hc, round_eq]
      exact Int.floor_nonneg.mpr (by nlinarith)
    have hc6000 : c ≤ 6000 := by
      have : (⌊s * 100 + 1 / 2⌋ : ℤ) < 6001 := Int.floor_lt.mpr (by push_cast; nlinarith)
      rw [hc, round_eq]
      omega
    have habs : |(c : ℚ) - s * 100| ≤ 1 / 2 := by
      have h := abs_sub_round (s * 100)
      rw [abs_sub_comm] at h
      rw [hc]
      exact h
    set cn : ℕ := c.natAbs with hcn
    have hcn6000 : cn ≤ 6000 := by omega
    have hI100 : cn / 100 < 100 := by omega
    have ha10 : cn % 100 / 10 < 10 := by omega
    have hb10 : cn % 10 < 10 := by omega
    have hdn100 : d.toNat < 100 := by omega
    have hmn100 : m.toNat < 100 := by omega
    -- the sign table index
    have hid0 : 0 ≤ ⌊L / 30⌋ := Int.floor_nonneg.mpr (by positivity)
    have hid12 : ⌊L / 30⌋ < 12 := Int.floor_lt.mpr (by push_cast; linarith)
    set idxn : ℕ := (⌊L / 30⌋).toNat with hidxn
    have hidxlen : idxn < zodiac_signs.length := by
      simp only [zodiac_signs, List.length]
      omega
    have hget : pyListGet zodiac_signs ⌊L / 30⌋ = some zodiac_signs[idxn] := by
      unfold pyListGet
      rw [if_pos hid0, ← hidxn, List.getElem?_eq_getElem hidxlen]
    have hwf := zodiac_signs_wf zodiac_signs[idxn] (List.getElem_mem hidxlen)
    -- the emitted string
    have hpy1 : pyInt P = d := by
      unfold pyInt
      rw [if_pos hpos0, hd]
    have hpy2 : pyInt ((P - (d : ℚ)) * 60) = m := by
      unfold pyInt
      rw [if_pos (by nlinarith), hm]
    have hdms := degrees_to_dms_eval P d m c hpy1 hpy2 (by rw [hc, hs])
    have histrd : intStr d = natStr d.toNat := by
      unfold intStr
      rw [if_neg (by omega)]
    have histrm : intStr m = natStr m.toNat := by
      unfold intStr
      rw [if_neg (by omega)]
    have hifc : (if c < 0 then "-" else "") = "" := by
      rw [if_neg (by omega)]
    rw [histrd, histrm, hifc] at hdms
    have hzod : degrees_to_zodiac L
        = some (natStr d.toNat ++ "° " ++ natStr m.toNat ++ "' " ++
            ("" ++ natStr (cn / 100) ++ "." ++
              (⟨[digitChar (cn % 100 / 10), digitChar (cn % 10)]⟩ : String)) ++ "\""
            ++ " " ++ zodiac_signs[idxn]) := by
      simp only [degrees_to_zodiac, hget]
      rw [← hP, hdms, hcn]
    -- its character content, in the canonical shape of the regex lemma
    have hdata : (natStr d.toNat ++ "° " ++ natStr m.toNat ++ "' " ++
          ("" ++ natStr (cn / 100) ++ "." ++
            (⟨[digitChar (cn % 100 / 10), digitChar (cn % 10)]⟩ : String)) ++ "\""
          ++ " " ++ zodiac_signs[idxn]).data
        = (natStr d.toNat).data ++ '°' :: ' ' :: ((natStr m.toNat).data ++ '\'' :: ' ' ::
            ((natStr (cn / 100)).data ++ '.' :: digitChar (cn % 100 / 10) ::
              digitChar (cn % 10) :: '"' :: ' ' :: (zodiac_signs[idxn]).data)) := by
      simp [String.data_append, List.append_assoc]
    have hsplit : (natStr d.toNat).data ++ '°' :: ' ' :: ((natStr m.toNat).data ++ '\'' :: ' ' ::
          ((natStr (cn / 100)).data ++ '.' :: digitChar (cn % 100 / 10) ::
            digitChar (cn % 10) :: '"' :: ' ' :: (zodiac_signs[idxn]).data))
        = ((natStr d.toNat).data ++ '°' :: ' ' :: ((natStr m.toNat).data ++ '\'' :: ' ' ::
            ((natStr (cn / 100)).data ++ '.' :: digitChar (cn % 100 / 10) ::
              digitChar (cn % 10) :: ['"', ' ']))) ++ (zodiac_signs[idxn]).data := by
      simp [List.append_assoc]
    have hne : (zodiac_signs[idxn]).data ≠ [] := by
      intro hnil
      have h := hwf.2.1
      rw [hnil] at h
      simp at h
    have hstrip : pyStrip ((natStr d.toNat).data ++ '°' :: ' ' ::
          ((natStr m.toNat).data ++ '\'' :: ' ' ::
            ((natStr (cn / 100)).data ++ '.' :: digitChar (cn % 100 / 10) ::
              digitChar (cn % 10) :: '"' :: ' ' :: (zodiac_signs[idxn]).data)))
        = (natStr d.toNat).data ++ '°' :: ' ' :: ((natStr m.toNat).data ++ '\'' :: ' ' ::
            ((natStr (cn / 100)).data ++ '.' :: digitChar (cn % 100 / 10) ::
              digitChar (cn % 10) :: '"' :: ' ' :: (zodiac_signs[idxn]).data)) := by
      refine pyStrip_noop _ (dropWhile_space_natStr d.toNat hdn100 _) ?_
      rw [hsplit, List.reverse_append]
      refine dropWhile_append_of_ne isPySpace _ _ (by simpa using hne) ?_
      exact hwf.2.2.2.1
    have hre : regexMatch (pyStrip ((natStr d.toNat ++ "° " ++ natStr m.toNat ++ "' " ++
          ("" ++ natStr (cn / 100) ++ "." ++
            (⟨[digitChar (cn % 100 / 10), digitChar (cn % 10)]⟩ : String)) ++ "\""
          ++ " " ++ zodiac_signs[idxn]).data))
        = some ((d.toNat : ℚ), some ((m.toNat : ℚ)),
            some ((cn / 100 : ℕ) + ((10 * (cn % 100 / 10) + cn % 10 : ℕ) : ℚ) / 100),
            (zodiac_signs[idxn]).data) := by
      rw [hdata, hstrip]
      exact regexMatch_canonical d.toNat m.toNat (cn / 100) (cn % 100 / 10) (cn % 10)
        (zodiac_signs[idxn]).data hdn100 hmn100 hI100 ha10 hb10
        hwf.1 hwf.2.1 hwf.2.2.1
    have hidxof : List.indexOf?
        (⟨pyCapitalize ((zodiac_signs[idxn]).data)⟩ : String) zodiac_signs
          = some idxn := by
      rw [hwf.2.2.2.2]
      exact zodiac_indexOf idxn hidxlen
    have hconv := convert_eq_ok _ _ _ _ _ idxn hre hidxof
    refine ⟨_, _, hzod, hconv, ?_⟩
    -- the numeric error bound
    simp only [Option.getD_some]
    have hLsplit : L = 30 * (⌊L / 30⌋ : ℚ) + P := by
      rw [hP]
      unfold pymod
      ring
    have hidcast : ((idxn : ℕ) : ℚ) = (⌊L / 30⌋ : ℚ) := by
      rw [hidxn]
      exact_mod_cast congrArg (fun z : ℤ => (z : ℚ)) (Int.toNat_of_nonneg hid0)
    have hdcast : ((d.toNat : ℕ) : ℚ) = (d : ℚ) := by
      exact_mod_cast congrArg (fun z : ℤ => (z : ℚ)) (Int.toNat_of_nonneg hd0)
    have hmcast : ((m.toNat : ℕ) : ℚ) = (m : ℚ) := by
      exact_mod_cast congrArg (fun z : ℤ => (z : ℚ)) (Int.toNat_of_nonneg hm0)
    have hfracn : 10 * (cn % 100 / 10) + cn % 10 = cn % 100 := by omega
    have hdivmod : 100 * (cn / 100) + cn % 100 = cn := by omega
    have hcncast : ((cn : ℕ) : ℚ) = (c : ℚ) := by
      rw [hcn, Int.cast_natAbs]
      exact_mod_cast abs_of_nonneg hc0
    have hsecval : ((cn / 100 : ℕ) : ℚ) + ((10 * (cn % 100 / 10) + cn % 10 : ℕ) : ℚ) / 100
        = (c : ℚ) / 100 := by
      rw [hfracn, ← hcncast]
      rw [show ((cn : ℕ) : ℚ) = ((100 * (cn / 100) + cn % 100 : ℕ) : ℚ) by rw [hdivmod]]
      push_cast
      ring
    have hPsplit : P = (d : ℚ) + (m : ℚ) / 60 + s / 3600 := by
      rw [hs]
      ring
    rw [hdcast, hmcast, hsecval, hidcast]
    have hveq : (d : ℚ) + (m : ℚ) / 60 + ((c : ℚ) / 100) / 3600 + (⌊L / 30⌋ : ℚ) * 30 - L
        = ((c : ℚ) - s * 100) / 360000 := by
      linear_combination (-1 : ℚ) * hLsplit - hPsplit
    calc |(d : ℚ) + (m : ℚ) / 60 + ((c : ℚ) / 100) / 3600 + (⌊L / 30⌋ : ℚ) * 30 - L|
        = |(c : ℚ) - s * 100| / 360000 := by
          rw [hveq, abs_div]
          norm_num
      _ ≤ 1 / 3600 := by linarith [habs]
  · -- Scenario A, parsing direction
    have hwf := zodiac_signs_wf "Aries" (by decide)
    have hdata : ("20° 26' 27.06\" Aries").data
        = (natStr 20).data ++ '°' :: ' ' :: ((natStr 26).data ++ '\'' :: ' ' ::
            ((natStr 27).data ++ '.' :: digitChar 0 :: digitChar 6 :: '"' :: ' ' ::
              ("Aries").data)) := rfl
    have hstrip : pyStrip (("20° 26' 27.06\" Aries").data)
        = ("20° 26' 27.06\" Aries").data := rfl
    have hre : regexMatch (pyStrip (("20° 26' 27.06\" Aries").data))
        = some (((20 : ℕ) : ℚ), some ((26 : ℕ) : ℚ),
            some (((27 : ℕ) : ℚ) + ((10 * 0 + 6 : ℕ) : ℚ) / 100), ("Aries").data) := by
      rw [hstrip, hdata]
      exact regexMatch_canonical 20 26 27 0 6 ("Aries").data (by norm_num) (by norm_num)
        (by norm_num) (by norm_num) (by norm_num) hwf.1 hwf.2.1 hwf.2.2.1
    have hidxof : List.indexOf? (⟨pyCapitalize (("Aries").data)⟩ : String) zodiac_signs
        = some 0 := rfl
    rw [convert_eq_ok _ _ _ _ _ 0 hre hidxof]
    simp only [Option.getD_some, Except.ok.injEq]
    push_cast
    norm_num
  · -- Scenario A, formatting direction
    have hid : (⌊(1226451 / 60000 : ℚ) / 30⌋ : ℤ) = 0 := by norm_num
    have hget : pyListGet zodiac_signs ⌊(1226451 / 60000 : ℚ) / 30⌋ = some "Aries" := by
      rw [hid]
      rfl
    have hmod : pymod (1226451 / 60000 : ℚ) 30 = 1226451 / 60000 := by
      unfold pymod
      rw [hid]
      ring
    have hdms := degrees_to_dms_eval (1226451 / 60000 : ℚ) 20 26 2706
      (by norm_num [pyInt]) (by norm_num [pyInt]) (by norm_num [round_eq])
    simp only [degrees_to_zodiac, hget]
    rw [hmod, hdms]
    rfl

theorem position_roundtrip_witness :
    ∃ str v, degrees_to_zodiac (61 / 2 : ℚ) = some str ∧
      convert_to_degrees str = .ok v ∧ |v - 61 / 2| ≤ 1 / 3600 :=
  position_roundtrip.1 (61 / 2) (by norm_num) (by norm_num)

